import Mathlib

/-!
Verification development for the `kinto` sqlalchemy storage backend
(`kinto/core/storage/sqlalchemy/__init__.py`, `generators.py`, `exceptions.py`).

The storage engine keeps, for one collection class, a table of live/soft-deleted
rows, a `deleted` table of tombstones, and a clock.  We embed the record tables
as lists, the ORM session operations as explicit state passing, SQL timestamps
(`datetime.utcnow()`) as naturals read off a strictly increasing counter, and
Python exceptions as `Except` results.  Column values that filters and sorts
compare are embedded as integers.
-/

namespace Kinto

/-- A row of the collection table.  Mirrors `SQLABaseObject`
(`kinto/core/resource/sqlalchemy/__init__.py`): an `Integer` primary key `id`,
a `String` `parent_id`, a `last_modified` timestamp, a `deleted` boolean
(column default `False`), plus the collection-specific columns, embedded as an
association list from column name to integer value. -/
structure Row where
  id : Nat
  parent_id : String
  last_modified : Nat
  deleted : Bool
  fields : List (String × Int)
deriving DecidableEq, Repr

/-- Column access (`getattr(obj, field)` on a mapped column) for the columns
that filters and sorts may name: `id`, `last_modified`, or a collection
specific column (missing collection columns read as their null/0 default). -/
def Row.attr (r : Row) (f : String) : Int :=
  if f = "id" then (r.id : Int)
  else if f = "last_modified" then (r.last_modified : Int)
  else ((r.fields.lookup f).getD 0)

/-- A row of the `deleted` table (class `Deleted` in the source): the tombstone
of a soft-deleted record. -/
structure DeletedRow where
  id : Nat
  parent_id : String
  collection_id : String
  last_modified : Nat
deriving DecidableEq, Repr

/-- The persistent state one `Storage` instance operates on: the collection
table, the `deleted` (tombstone) table, and the clock.  `now` is the value the
next `datetime.datetime.utcnow()` call returns; every read ticks it, so wall
clock readings are strictly increasing. -/
structure DBState where
  records : List Row
  tombstones : List DeletedRow
  now : Nat
deriving DecidableEq, Repr

/-- Filter operators (`cliquet.utils.COMPARISON`; the module itself is outside
this repository — the constructor list follows the abstract data model, the
special-casing below follows `SQLAFilter` in the source). -/
inductive CompOp where
  | EQ | NEQ | LT | LTE | GT | GTE | IN | EXCLUDE
deriving DecidableEq, Repr

/-- A filter value: a scalar for the binary comparison operators, a list for
the membership operators `IN` / `EXCLUDE`. -/
inductive FilterVal where
  | scalar (v : Int)
  | list (vs : List Int)
deriving DecidableEq, Repr

/-- A filter triple `(field, value, operator)` (`cliquet.storage.Filter`). -/
structure Filter where
  field : String
  value : FilterVal
  operator : CompOp
deriving DecidableEq, Repr

/-- A filter is well formed when its value shape fits its operator:
`SQLAFilter.__call__` sends `IN`/`EXCLUDE` to the membership comparators
(which need a list) and every other operator to a direct binary comparison
(which needs a scalar). -/
def Filter.wellFormed (f : Filter) : Bool :=
  match f.operator, f.value with
  | .IN, .list _ => true
  | .EXCLUDE, .list _ => true
  | .EQ, .scalar _ => true
  | .NEQ, .scalar _ => true
  | .LT, .scalar _ => true
  | .LTE, .scalar _ => true
  | .GT, .scalar _ => true
  | .GTE, .scalar _ => true
  | _, _ => false

/-- Evaluation of one translated filter clause on one row
(`SQLAFilter.__call__`: membership semantics for `IN`/`EXCLUDE`, direct binary
comparison for the scalar operators).  Only reached for well-formed filters;
the mismatched shapes are dead branches. -/
def evalFilter (flt : Filter) (r : Row) : Bool :=
  match flt.operator, flt.value with
  | .EQ, .scalar v => r.attr flt.field == v
  | .NEQ, .scalar v => r.attr flt.field != v
  | .LT, .scalar v => decide (r.attr flt.field < v)
  | .LTE, .scalar v => decide (r.attr flt.field ≤ v)
  | .GT, .scalar v => decide (v < r.attr flt.field)
  | .GTE, .scalar v => decide (v ≤ r.attr flt.field)
  | .IN, .list vs => vs.contains (r.attr flt.field)
  | .EXCLUDE, .list vs => !(vs.contains (r.attr flt.field))
  | _, _ => false

/-- Errors a storage query can raise.  `filtersNone` / `sortingNone` are the
`TypeError` raised by `for every in filters` (resp. `sorting`) when the
argument is left at its `None` default; `keyErrorSortDirection` is the
`KeyError` from `SQLSort.__init__`; `malformedFilter` is the engine error from
building a clause whose value shape does not fit its operator. -/
inductive QueryError where
  | filtersNone
  | sortingNone
  | keyErrorSortDirection
  | malformedFilter
deriving DecidableEq, Repr

/-- Errors of the record lifecycle operations.  `integrityError` stands for the
constraint-violation branch of `create` (its classification into
`UnicityError` / `BackendError` is modelled separately, after the source's
`exceptions.py`). -/
inductive StorageErr where
  | recordNotFound
  | integrityError
deriving DecidableEq, Repr

/-- `Storage._apply_filters`: every filter clause is built
(`SQLAFilter(self.collection, every)()`) and the clauses are conjoined onto
the query (`self.qry.filter(*filter_clause)`). -/
def applyFilters (rows : List Row) (fs : List Filter) : Except QueryError (List Row) :=
  if fs.all Filter.wellFormed then
    .ok (rows.filter (fun r => fs.all (fun f => evalFilter f r)))
  else .error .malformedFilter

/-- A sort direction after translation. -/
inductive SortDir where
  | asc | desc
deriving DecidableEq, Repr

/-- A sort instruction `(field, direction)` (`cliquet.storage.Sort`; that name
is reserved in Lean). -/
structure SortInstr where
  field : String
  direction : Int
deriving DecidableEq, Repr

/-- `SQLSort.__init__`: `sql_sort_enum = {-1: 'desc', 1: 'asc'}` indexed with
the direction — `-1` and `1` translate, anything else raises `KeyError`
(modelled as `none`). -/
def SQLSort.build (s : SortInstr) : Option (String × SortDir) :=
  if s.direction = -1 then some (s.field, SortDir.desc)
  else if s.direction = 1 then some (s.field, SortDir.asc)
  else none

/-- `Storage._apply_orderby`: translate every sort instruction in the given
order; the first `KeyError` aborts the query. -/
def applyOrderby : List SortInstr → Except QueryError (List (String × SortDir))
  | [] => .ok []
  | s :: rest =>
    match SQLSort.build s with
    | none => .error .keyErrorSortDirection
    | some c =>
      match applyOrderby rest with
      | .error e => .error e
      | .ok cs => .ok (c :: cs)

/-- SQL three-way comparison of two column values. -/
def cmpVal (x y : Int) : Ordering :=
  if x < y then .lt else if x = y then .eq else .gt

/-- One `ORDER BY` clause compares the named column ascending or descending. -/
def cmpClause (c : String × SortDir) (a b : Row) : Ordering :=
  match c.2 with
  | .asc => cmpVal (a.attr c.1) (b.attr c.1)
  | .desc => cmpVal (b.attr c.1) (a.attr c.1)

/-- Cumulative `ORDER BY` clause list: lexicographic, first clause primary. -/
def cmpClauses : List (String × SortDir) → Row → Row → Ordering
  | [], _, _ => .eq
  | c :: cs, a, b =>
    match cmpClause c a b with
    | .eq => cmpClauses cs a b
    | o => o

/-- The row ordering induced by an `ORDER BY` clause list. -/
def rowLE (cs : List (String × SortDir)) (a b : Row) : Prop :=
  cmpClauses cs a b ≠ .gt

instance (cs : List (String × SortDir)) : DecidableRel (rowLE cs) := by
  intro a b
  unfold rowLE
  infer_instance

/-- `ORDER BY` applied to a result set: a stable sort by the clause list. -/
def sortRows (cs : List (String × SortDir)) (rows : List Row) : List Row :=
  List.insertionSort (rowLE cs) rows

/-! ### Storage engine operations (`Storage` in the source)

All operations below mirror the bodies of the corresponding methods in
`kinto/core/storage/sqlalchemy/__init__.py`.  A primary-key lookup
(`Session.query(self.collection).get(object_id)`) is `List.find?` on the
record table; `deserialize` is treated as the identity representation of a
row.  The timestamp-ledger machinery (the `timestamps` table and its
`before_flush` hook) is not consulted by any of the operations modelled,
so it is left out of the state. -/

/-- `generators.IntegerId.__call__`: the pluggable id generator of the
storage class — it constantly returns the string `'1'`. -/
def IntegerId.call : String := "1"

/-- A `create`/`update` payload: an optional explicit id and the
collection-specific fields.  (`serialize` builds the ORM object out of this
dict; an absent id is left for the `Integer` autoincrement primary key.) -/
structure Payload where
  id : Option Nat
  fields : List (String × Int)
deriving DecidableEq, Repr

/-- The database's autoincrement for the `Integer` primary key: one more than
the largest id present. -/
def nextId (db : DBState) : Nat :=
  (db.records.map Row.id).foldl max 0 + 1

namespace Storage

/-- `Storage.create`: serialize the payload, set `parent_id`, set the modified
field to `utcnow()`, add and flush.  A constraint violation on flush raises
`IntegrityError`, handed to the classifier (modelled separately); otherwise
the stored row's representation is returned.  The id generator is never
consulted: an absent id is assigned by the primary-key autoincrement. -/
def create (db : DBState) (_collection_id parent_id : String) (record : Payload) :
    DBState × Except StorageErr Row :=
  let rid := record.id.getD (nextId db)
  if db.records.any (fun r => r.id == rid) then
    (db, .error .integrityError)
  else
    let row : Row :=
      { id := rid, parent_id := parent_id, last_modified := db.now,
        deleted := false, fields := record.fields }
    ({ db with records := db.records ++ [row], now := db.now + 1 }, .ok row)

/-- `Storage.get`: primary-key lookup of `object_id`; raises
`RecordNotFoundError` when absent or soft-deleted.  The `parent_id` and
`collection_id` arguments are accepted but take no part in the lookup. -/
def get (db : DBState) (_collection_id _parent_id : String) (object_id : Nat) :
    Except StorageErr Row :=
  match db.records.find? (fun r => r.id == object_id) with
  | none => .error .recordNotFound
  | some r => if r.deleted then .error .recordNotFound else .ok r

/-- `setattr(obj, k, v)` on the fields association list: overwrite the value
stored under `k`, or add the attribute when absent. -/
def setField : List (String × Int) → String → Int → List (String × Int)
  | [], k, v => [(k, v)]
  | (k', v') :: rest, k, v =>
    if k' = k then (k, v) :: rest else (k', v') :: setField rest k v

/-- `for k, v in object.items(): setattr(obj, k, v)` on the fields list. -/
def setFields (fs : List (String × Int)) (object : List (String × Int)) :
    List (String × Int) :=
  object.foldl (fun fs p => setField fs p.1 p.2) fs

/-- `Storage.update`: primary-key lookup; when absent, fall back to `create`
with the payload's content (the requested `object_id` is not forced onto the
created record); when present, `setattr` each supplied field onto the row and
return its representation.  Nothing else on the row is modified. -/
def update (db : DBState) (collection_id parent_id : String) (object_id : Nat)
    (object : List (String × Int)) : DBState × Except StorageErr Row :=
  match db.records.find? (fun r => r.id == object_id) with
  | none => create db collection_id parent_id { id := none, fields := object }
  | some r =>
    let r' : Row := { r with fields := setFields r.fields object }
    ({ db with records := db.records.map (fun x => if x.id == object_id then r' else x) },
     .ok r')

/-- `Storage.delete`: primary-key lookup; raises `RecordNotFoundError` when
absent or already soft-deleted; otherwise sets the deleted flag, sets the
modified field to `utcnow()`, inserts one `Deleted` tombstone carrying the
passed `parent_id`/`collection_id` and the new timestamp, and returns the
row's representation. -/
def delete (db : DBState) (collection_id parent_id : String) (object_id : Nat) :
    DBState × Except StorageErr Row :=
  match db.records.find? (fun r => r.id == object_id) with
  | none => (db, .error .recordNotFound)
  | some r =>
    if r.deleted then (db, .error .recordNotFound)
    else
      let r' : Row := { r with deleted := true, last_modified := db.now }
      let tomb : DeletedRow :=
        { id := object_id, parent_id := parent_id, collection_id := collection_id,
          last_modified := db.now }
      ({ db with
          records := db.records.map (fun x => if x.id == object_id then r' else x),
          tombstones := db.tombstones ++ [tomb],
          now := db.now + 1 },
       .ok r')

/-- `Storage.delete_all`: select the live rows of the parent
(`parent_id == parent_id AND deleted == False`), conjoin the supplied filter
clauses (`for every in filters` — a `None` default raises `TypeError` before
anything is read or written), read each matched row's id with a fresh
`utcnow()` per comprehension element, bulk-mark those rows deleted with those
timestamps, bulk-insert the tombstones when `with_deleted`, and return the
minimal representations. -/
def delete_all (db : DBState) (collection_id parent_id : String)
    (filters : Option (List Filter)) (with_deleted : Bool) :
    DBState × Except QueryError (List DeletedRow) :=
  match filters with
  | none => (db, .error .filtersNone)
  | some fs =>
    if fs.all Filter.wellFormed then
      let matched := db.records.filter
        (fun r => r.parent_id == parent_id && !r.deleted && fs.all (fun f => evalFilter f r))
      let rows := matched.enum.map (fun p =>
        ({ id := p.2.id, parent_id := parent_id, collection_id := collection_id,
           last_modified := db.now + p.1 } : DeletedRow))
      ({ db with
          records := db.records.map (fun r =>
            match rows.find? (fun t => t.id == r.id) with
            | some t => { r with deleted := true, last_modified := t.last_modified }
            | none => r),
          tombstones := if with_deleted then db.tombstones ++ rows else db.tombstones,
          now := db.now + matched.length },
       .ok rows)
    else (db, .error .malformedFilter)

/-- `Storage.purge_deleted`: one bulk delete on the `deleted` table restricted
to `parent_id == parent_id AND collection_id == collection_id`; the number of
rows the delete removed is returned.  The `before` argument is accepted but
never enters the `where` clause (faithful to the source). -/
def purge_deleted (db : DBState) (collection_id parent_id : String)
    (_before : Option Nat) : DBState × Nat :=
  let kept := db.tombstones.filter
    (fun t => !(t.parent_id == parent_id && t.collection_id == collection_id))
  ({ db with tombstones := kept }, db.tombstones.length - kept.length)

/-- `Storage.get_all`: the base query is the whole collection table (the
`parent_id` restriction is commented out in the source); `total_records` is
its count, taken before anything else; then the deleted-exclusion unless
`include_deleted`, the filters (`None` raises `TypeError`), the sort (`None`
likewise), and the limit (`if limit:` — absent or `0` means unlimited).  The
`pagination_rules` argument is accepted but never applied. -/
def get_all (db : DBState) (_collection_id _parent_id : String)
    (filters : Option (List Filter)) (sorting : Option (List SortInstr))
    (_pagination_rules : Option (List (List Filter))) (limit : Option Nat)
    (include_deleted : Bool) : Except QueryError (List Row × Nat) :=
  let base := db.records
  let total_records := base.length
  let q0 := if include_deleted then base else base.filter (fun r => !r.deleted)
  match filters with
  | none => .error .filtersNone
  | some fs =>
    match applyFilters q0 fs with
    | .error e => .error e
    | .ok q1 =>
      match sorting with
      | none => .error .sortingNone
      | some ss =>
        match applyOrderby ss with
        | .error e => .error e
        | .ok clauses =>
          let q2 := if clauses.isEmpty then q1 else sortRows clauses q1
          let q3 := match limit with
            | some n => if n ≠ 0 then q2.take n else q2
            | none => q2
          .ok (q3, total_records)

end Storage

/-! ### Integrity-error classifier (`exceptions.py`)

`process_unicity_error` receives the `IntegrityError`, walks the `DBError`
class hierarchy (`DBError` → `postgresqlError` → `postgresqlError23505`)
matching `'{engine}Error'`-style patterns against subclass names, and always
ends in a raise: `UnicityError` when the postgresql unique-violation strategy
matched and its message parse succeeded, `BackendError` on every other path
(non-matching engine, missing/other error code, or a parse failure — those
exceptions are logged and fall through to the generic `process_error`).
The raw error is embedded as its engine name, optional `pgcode` and `pgerror`
message; the attempted record as a `Payload`. -/

/-- The raw constraint-violation error handed to the classifier: the session's
engine name, `error.orig.pgcode` (`none` when the driver object lacks it,
which raises `AttributeError` inside the strategy lookup), and
`error.orig.pgerror`. -/
structure RawError where
  engine : String
  pgcode : Option String
  pgerror : String
deriving DecidableEq, Repr

/-- The classifier's outcome.  Every path of `DBError.get_class` raises, so
the outcome type has no normal-return constructor. -/
inductive ClassifierOutcome where
  | unicity (field : String) (record : Payload)
  | backend
deriving DecidableEq, Repr

/-- Scan the lazy group `(.*?)` up to the next `')'`: consume any character
except `')'`, failing on a newline (an un-flagged `.` does not match `'\n'`)
or at end of input. -/
def scanGroup : List Char → Option (List Char × List Char)
  | [] => none
  | c :: rest =>
    if c = ')' then some ([], rest)
    else if c = '\n' then none
    else (scanGroup rest).map (fun p => (c :: p.1, p.2))

/-- Fuel-bounded scan for `re.findall(r'\((.*?)\)', s)`: at a `'('`, the lazy
group runs to the next `')'` (failing on a newline or end of input, after
which scanning resumes at the following character).  Every step consumes at
least one character of the remaining input while spending exactly one unit of
fuel, so fuel `≥` the input length never runs out (`findallParenAux_fuel`
below makes the fuel-independence precise). -/
def findallParenAux : Nat → List Char → List String
  | 0, _ => []
  | _ + 1, [] => []
  | fuel + 1, c :: rest =>
    if c = '(' then
      match scanGroup rest with
      | some (grp, rest') => String.mk grp :: findallParenAux fuel rest'
      | none => findallParenAux fuel rest
    else findallParenAux fuel rest

/-- `re.findall(r'\((.*?)\)', s)`: every non-overlapping lazy parenthesised
group of `s`. -/
def findallParen (l : List Char) : List String :=
  findallParenAux l.length l

/-- `postgresqlError23505.process_error`: `field, _ = re.findall(...)` — the
unpacking needs exactly two groups; its first is raised as the `UnicityError`
field together with the attempted record.  Any other number of groups raises
`ValueError`, which the surrounding lookup turns into `BackendError`. -/
def postgresqlError23505.process_error (pgerror : String) (record : Payload) :
    ClassifierOutcome :=
  match findallParen pgerror.toList with
  | [field, _] => .unicity field record
  | _ => .backend

/-- `DBError.get_class` as invoked by `process_unicity_error`: at the root the
pattern `'{engine}Error'` is matched against the sole subclass name
`postgresqlError`; one level down `'{engine}Error{error}'` (with
`error.orig.pgcode`; a driver without `pgcode` raises inside the lookup and
falls through) is matched against `postgresqlError23505`, whose
`process_error` runs; every non-matching or failing path reaches a generic
`process_error`, i.e. `BackendError`. -/
def DBError.get_class (e : RawError) (record : Payload) : ClassifierOutcome :=
  if e.engine ++ "Error" = "postgresqlError" then
    match e.pgcode with
    | none => .backend
    | some code =>
      if e.engine ++ "Error" ++ code = "postgresqlError23505" then
        postgresqlError23505.process_error e.pgerror record
      else .backend
  else .backend

/-! ### Concrete states used as test inputs -/

/-- Live record of rank 2 (the spec's record `a`). -/
def rowA : Row := { id := 1, parent_id := "p", last_modified := 10, deleted := false, fields := [("rank", 2)] }

/-- Live record of rank 1 (the spec's record `b`). -/
def rowB : Row := { id := 2, parent_id := "p", last_modified := 11, deleted := false, fields := [("rank", 1)] }

/-- A two-record collection. -/
def db2 : DBState := { records := [rowA, rowB], tombstones := [], now := 20 }

/-- A live record next to a soft-deleted one. -/
def rowLive : Row := { id := 1, parent_id := "p", last_modified := 10, deleted := false, fields := [] }

/-- A soft-deleted record. -/
def rowGone : Row := { id := 2, parent_id := "p", last_modified := 11, deleted := true, fields := [] }

/-- A collection with one live and one soft-deleted record. -/
def dbDel : DBState := { records := [rowLive, rowGone], tombstones := [], now := 20 }

/-- A record living under parent `"A"`. -/
def rowF : Row := { id := 1, parent_id := "A", last_modified := 10, deleted := false, fields := [] }

/-- A state whose only record belongs to parent `"A"`. -/
def dbF : DBState := { records := [rowF], tombstones := [], now := 20 }

/-- A state with a single tombstone, deleted at time 100. -/
def dbT : DBState := { records := [], tombstones := [{ id := 1, parent_id := "p", collection_id := "c", last_modified := 100 }], now := 120 }

/-- A live record with two content fields, last modified at time 5. -/
def rowU : Row := { id := 1, parent_id := "p", last_modified := 5, deleted := false, fields := [("name", 10), ("rank", 2)] }

/-- A state holding just `rowU`. -/
def dbU : DBState := { records := [rowU], tombstones := [], now := 9 }

/-- A one-record state for exercising `create`'s id assignment. -/
def db8 : DBState := { records := [{ id := 1, parent_id := "p", last_modified := 5, deleted := false, fields := [] }], tombstones := [], now := 7 }

/-- A live record to be deleted. -/
def rowW : Row := { id := 1, parent_id := "p", last_modified := 3, deleted := false, fields := [] }

/-- A state holding just `rowW`, clock at 10. -/
def dbW : DBState := { records := [rowW], tombstones := [], now := 10 }

/-- `rowW` after its soft deletion at time 10. -/
def rowW' : Row := { id := 1, parent_id := "p", last_modified := 10, deleted := true, fields := [] }

/-- `dbW` after `delete` succeeded: the row marked deleted, one tombstone, the
clock ticked. -/
def dbW' : DBState := { records := [rowW'], tombstones := [{ id := 1, parent_id := "p", collection_id := "c", last_modified := 10 }], now := 11 }

/-! ### Helper lemmas: the ORDER BY comparator -/

theorem cmpVal_lt_iff (x y : Int) : cmpVal x y = .lt ↔ x < y := by
  unfold cmpVal
  split_ifs with h1 h2 <;> simp_all <;> omega

theorem cmpVal_eq_iff (x y : Int) : cmpVal x y = .eq ↔ x = y := by
  unfold cmpVal
  split_ifs with h1 h2 <;> simp_all <;> omega

theorem cmpVal_gt_iff (x y : Int) : cmpVal x y = .gt ↔ y < x := by
  unfold cmpVal
  split_ifs with h1 h2 <;> simp_all <;> omega

theorem cmpClause_gt_iff (c : String × SortDir) (a b : Row) :
    cmpClause c a b = .gt ↔ cmpClause c b a = .lt := by
  obtain ⟨f, dir⟩ := c
  cases dir <;> simp only [cmpClause] <;> rw [cmpVal_gt_iff, cmpVal_lt_iff]

theorem cmpClause_eq_symm (c : String × SortDir) (a b : Row) :
    cmpClause c a b = .eq ↔ cmpClause c b a = .eq := by
  obtain ⟨f, dir⟩ := c
  cases dir <;> simp only [cmpClause] <;> rw [cmpVal_eq_iff, cmpVal_eq_iff] <;> exact eq_comm

theorem cmpClause_lt_trans {c : String × SortDir} {a b d : Row}
    (h1 : cmpClause c a b = .lt) (h2 : cmpClause c b d = .lt) : cmpClause c a d = .lt := by
  obtain ⟨f, dir⟩ := c
  cases dir <;> simp only [cmpClause, cmpVal_lt_iff] at * <;> omega

theorem cmpClause_lt_of_lt_eq {c : String × SortDir} {a b d : Row}
    (h1 : cmpClause c a b = .lt) (h2 : cmpClause c b d = .eq) : cmpClause c a d = .lt := by
  obtain ⟨f, dir⟩ := c
  cases dir <;> simp only [cmpClause, cmpVal_lt_iff, cmpVal_eq_iff] at * <;> omega

theorem cmpClause_lt_of_eq_lt {c : String × SortDir} {a b d : Row}
    (h1 : cmpClause c a b = .eq) (h2 : cmpClause c b d = .lt) : cmpClause c a d = .lt := by
  obtain ⟨f, dir⟩ := c
  cases dir <;> simp only [cmpClause, cmpVal_lt_iff, cmpVal_eq_iff] at * <;> omega

theorem cmpClause_eq_trans {c : String × SortDir} {a b d : Row}
    (h1 : cmpClause c a b = .eq) (h2 : cmpClause c b d = .eq) : cmpClause c a d = .eq := by
  obtain ⟨f, dir⟩ := c
  cases dir <;> simp only [cmpClause, cmpVal_eq_iff] at * <;> omega

theorem cmpClauses_swap (cs : List (String × SortDir)) (a b : Row) :
    cmpClauses cs a b = (cmpClauses cs b a).swap := by
  induction cs with
  | nil => rfl
  | cons c cs ih =>
    simp only [cmpClauses]
    cases hba : cmpClause c b a with
    | lt =>
      have : cmpClause c a b = .gt := (cmpClause_gt_iff c a b).mpr hba
      rw [this]
      rfl
    | eq =>
      have : cmpClause c a b = .eq := (cmpClause_eq_symm c a b).mpr hba
      rw [this]
      exact ih
    | gt =>
      have : cmpClause c b a = .gt := hba
      have hab : cmpClause c a b = .lt := by
        have := (cmpClause_gt_iff c b a).mp this
        exact this
      rw [hab]
      rfl

theorem cmpClauses_trans {cs : List (String × SortDir)} {a b d : Row}
    (h1 : cmpClauses cs a b ≠ .gt) (h2 : cmpClauses cs b d ≠ .gt) :
    cmpClauses cs a d ≠ .gt := by
  induction cs with
  | nil => simp [cmpClauses]
  | cons c cs ih =>
    simp only [cmpClauses] at h1 h2 ⊢
    cases hab : cmpClause c a b with
    | gt => rw [hab] at h1; exact absurd rfl h1
    | lt =>
      cases hbd : cmpClause c b d with
      | gt => rw [hbd] at h2; exact absurd rfl h2
      | lt => rw [cmpClause_lt_trans hab hbd]; simp
      | eq => rw [cmpClause_lt_of_lt_eq hab hbd]; simp
    | eq =>
      cases hbd : cmpClause c b d with
      | gt => rw [hbd] at h2; exact absurd rfl h2
      | lt => rw [cmpClause_lt_of_eq_lt hab hbd]; simp
      | eq =>
        rw [cmpClause_eq_trans hab hbd]
        rw [hab] at h1
        rw [hbd] at h2
        exact ih h1 h2

theorem rowLE_total (cs : List (String × SortDir)) (a b : Row) :
    rowLE cs a b ∨ rowLE cs b a := by
  unfold rowLE
  by_cases h : cmpClauses cs a b = .gt
  · right
    rw [cmpClauses_swap cs b a, h]
    simp [Ordering.swap]
  · left; exact h

theorem cmpClauses_single (c : String × SortDir) (a b : Row) :
    cmpClauses [c] a b = cmpClause c a b := by
  simp only [cmpClauses]
  cases cmpClause c a b <;> rfl

theorem rowLE_head {c : String × SortDir} {cs : List (String × SortDir)} {a b : Row}
    (h : rowLE (c :: cs) a b) : rowLE [c] a b := by
  unfold rowLE at *
  rw [cmpClauses_single]
  intro hgt
  apply h
  simp only [cmpClauses, hgt]

/-! ### Helper lemmas: primary-key update, field merge, autoincrement -/

theorem find?_map_update (l : List Row) (oid : Nat) (r' : Row) (h : r'.id = oid) :
    (l.map (fun x => if x.id == oid then r' else x)).find? (fun x => x.id == oid) =
      (l.find? (fun x => x.id == oid)).map (fun _ => r') := by
  induction l with
  | nil => rfl
  | cons x xs ih =>
    rw [List.map_cons]
    by_cases hx : (x.id == oid) = true
    · have hr : (r'.id == oid) = true := by simp [h]
      rw [if_pos hx]
      rw [@List.find?_cons_of_pos Row (fun x => x.id == oid) r'
            (List.map (fun x => if x.id == oid then r' else x) xs) hr]
      rw [@List.find?_cons_of_pos Row (fun x => x.id == oid) x xs hx]
      rfl
    · rw [if_neg hx]
      rw [@List.find?_cons_of_neg Row (fun x => x.id == oid) x
            (List.map (fun x => if x.id == oid then r' else x) xs) hx]
      rw [@List.find?_cons_of_neg Row (fun x => x.id == oid) x xs hx]
      exact ih

theorem setField_lookup_self (fs : List (String × Int)) (k : String) (v : Int) :
    (Storage.setField fs k v).lookup k = some v := by
  induction fs with
  | nil => simp [Storage.setField, List.lookup]
  | cons p rest ih =>
    obtain ⟨k', v'⟩ := p
    by_cases h : k' = k
    · simp [Storage.setField, h, List.lookup]
    · have hne : (k == k') = false := beq_eq_false_iff_ne.mpr (fun he => h he.symm)
      simp [Storage.setField, h, List.lookup, hne, ih]

theorem setField_lookup_ne (fs : List (String × Int)) (k : String) (v : Int)
    (k'' : String) (h : k'' ≠ k) :
    (Storage.setField fs k v).lookup k'' = fs.lookup k'' := by
  have hne : (k'' == k) = false := beq_eq_false_iff_ne.mpr h
  induction fs with
  | nil => simp [Storage.setField, List.lookup, hne]
  | cons p rest ih =>
    obtain ⟨k', v'⟩ := p
    by_cases hk : k' = k
    · have hne' : (k'' == k') = false := beq_eq_false_iff_ne.mpr (by rw [hk]; exact h)
      simp [Storage.setField, hk, List.lookup, hne, hne']
    · by_cases he : k'' = k'
      · simp [Storage.setField, hk, List.lookup, he]
      · have hne' : (k'' == k') = false := beq_eq_false_iff_ne.mpr he
        simp [Storage.setField, hk, List.lookup, hne', ih]

theorem setFields_lookup_not_mem :
    ∀ (object fs : List (String × Int)) (k : String),
      (∀ p ∈ object, p.1 ≠ k) →
      (Storage.setFields fs object).lookup k = fs.lookup k := by
  intro object
  induction object with
  | nil => intro fs k _; rfl
  | cons p rest ih =>
    intro fs k h
    have step := ih (Storage.setField fs p.1 p.2) k
      (fun q hq => h q (List.mem_cons_of_mem _ hq))
    calc (Storage.setFields fs (p :: rest)).lookup k
        = (Storage.setFields (Storage.setField fs p.1 p.2) rest).lookup k := rfl
      _ = (Storage.setField fs p.1 p.2).lookup k := step
      _ = fs.lookup k := setField_lookup_ne fs p.1 p.2 k (Ne.symm (h p (List.mem_cons_self _ _)))

theorem setFields_lookup_mem :
    ∀ (object fs : List (String × Int)) (k : String) (v : Int),
      (object.map Prod.fst).Nodup → (k, v) ∈ object →
      (Storage.setFields fs object).lookup k = some v := by
  intro object
  induction object with
  | nil => intro fs k v _ hmem; exact absurd hmem (List.not_mem_nil _)
  | cons p rest ih =>
    intro fs k v hnd hmem
    simp only [List.map_cons, List.nodup_cons] at hnd
    rcases List.mem_cons.mp hmem with heq | hrest
    · have hnot : ∀ q ∈ rest, q.1 ≠ k := by
        intro q hq he
        apply hnd.1
        rw [← heq]
        show k ∈ List.map Prod.fst rest
        rw [← he]
        exact List.mem_map_of_mem Prod.fst hq
      calc (Storage.setFields fs (p :: rest)).lookup k
          = (Storage.setFields (Storage.setField fs p.1 p.2) rest).lookup k := rfl
        _ = (Storage.setField fs p.1 p.2).lookup k :=
            setFields_lookup_not_mem rest (Storage.setField fs p.1 p.2) k hnot
        _ = some v := by rw [← heq]; exact setField_lookup_self fs k v
    · calc (Storage.setFields fs (p :: rest)).lookup k
          = (Storage.setFields (Storage.setField fs p.1 p.2) rest).lookup k := rfl
        _ = some v := ih (Storage.setField fs p.1 p.2) k v hnd.2 hrest

theorem le_foldl_max (l : List Nat) (a x : Nat) (h : x ∈ l ∨ x ≤ a) :
    x ≤ l.foldl max a := by
  induction l generalizing a with
  | nil =>
    rcases h with h | h
    · exact absurd h (List.not_mem_nil _)
    · exact h
  | cons y ys ih =>
    simp only [List.foldl_cons]
    rcases h with h | h
    · rcases List.mem_cons.mp h with rfl | h'
      · exact ih (max a x) (Or.inr (le_max_right a x))
      · exact ih (max a y) (Or.inl h')
    · exact ih (max a y) (Or.inr (le_trans h (le_max_left a y)))

theorem nextId_gt (db : DBState) : ∀ r ∈ db.records, r.id < nextId db := by
  intro r hr
  have : r.id ≤ (db.records.map Row.id).foldl max 0 :=
    le_foldl_max _ 0 r.id (Or.inl (List.mem_map_of_mem Row.id hr))
  exact Nat.lt_succ_of_le this

theorem any_nextId_false (db : DBState) :
    db.records.any (fun r => r.id == nextId db) = false := by
  rw [List.any_eq_false]
  intro r hr
  simp only [beq_iff_eq]
  exact Nat.ne_of_lt (nextId_gt db r hr)

/-! ### Helper lemmas: classifier name-pattern matching -/

theorem engine_eq_of_append {engine : String} (h : engine ++ "Error" = "postgresqlError") :
    engine = "postgresql" := by
  have hd := congrArg String.data h
  rw [String.data_append] at hd
  have hsplit : ("postgresqlError" : String).data =
      ("postgresql" : String).data ++ ("Error" : String).data := by decide
  rw [hsplit] at hd
  exact String.ext (List.append_cancel_right hd)

theorem code_eq_of_append {code : String}
    (h : ("postgresql" : String) ++ "Error" ++ code = "postgresqlError23505") :
    code = "23505" := by
  have hd := congrArg String.data h
  rw [String.data_append, String.data_append] at hd
  have hsplit : ("postgresqlError23505" : String).data =
      (("postgresql" : String).data ++ ("Error" : String).data) ++ ("23505" : String).data := by
    decide
  rw [hsplit] at hd
  exact String.ext (List.append_cancel_left hd)

/-! ### Helper lemmas: the message scanner's fuel is irrelevant -/

theorem scanGroup_length :
    ∀ (l g r : List Char), scanGroup l = some (g, r) → r.length < l.length := by
  intro l
  induction l with
  | nil => intro g r h; simp [scanGroup] at h
  | cons c rest ih =>
    intro g r h
    simp only [scanGroup] at h
    split at h
    · injection h with h'
      cases h'
      simp
    · split at h
      · exact absurd h (by simp)
      · cases hrec : scanGroup rest with
        | none => rw [hrec] at h; simp at h
        | some p =>
          rw [hrec] at h
          simp only [Option.map] at h
          injection h with h'
          cases p with
          | mk g' r' =>
            have hr : r' = r := by
              have := congrArg Prod.snd h'
              simpa using this
            subst hr
            exact Nat.lt_succ_of_lt (ih _ _ hrec)

theorem findallParenAux_fuel :
    ∀ (fuel fuel' : Nat) (l : List Char), l.length ≤ fuel → l.length ≤ fuel' →
      findallParenAux fuel l = findallParenAux fuel' l := by
  intro fuel
  induction fuel with
  | zero =>
    intro fuel' l hl _
    have : l = [] := List.eq_nil_of_length_eq_zero (Nat.le_zero.mp hl)
    subst this
    cases fuel' <;> rfl
  | succ fuel ih =>
    intro fuel' l hl hl'
    cases l with
    | nil => cases fuel' <;> rfl
    | cons c rest =>
      cases fuel' with
      | zero => exact absurd hl' (by simp)
      | succ fuel'' =>
        simp only [findallParenAux]
        have hrest : rest.length ≤ fuel := by simpa using hl
        have hrest' : rest.length ≤ fuel'' := by simpa using hl'
        by_cases hc : c = '('
        · rw [if_pos hc, if_pos hc]
          cases hscan : scanGroup rest with
          | none => exact ih fuel'' rest hrest hrest'
          | some p =>
            obtain ⟨grp, rest'⟩ := p
            have hlen := scanGroup_length rest grp rest' hscan
            have heq := ih fuel'' rest' (Nat.le_of_lt (Nat.lt_of_lt_of_le hlen hrest))
              (Nat.le_of_lt (Nat.lt_of_lt_of_le hlen hrest'))
            simp [heq]
        · rw [if_neg hc, if_neg hc]
          exact ih fuel'' rest hrest hrest'

/-! ### Helper lemmas: which errors the query pipeline can produce -/

theorem applyFilters_error (rows : List Row) (fs : List Filter) (e : QueryError)
    (h : applyFilters rows fs = .error e) : e = .malformedFilter := by
  unfold applyFilters at h
  split at h
  · exact absurd h (by simp)
  · injection h with h'
    exact h'.symm

theorem applyOrderby_error :
    ∀ (ss : List SortInstr) (e : QueryError),
      applyOrderby ss = .error e → e = .keyErrorSortDirection := by
  intro ss
  induction ss with
  | nil => intro e h; exact absurd h (by simp [applyOrderby])
  | cons s rest ih =>
    intro e h
    simp only [applyOrderby] at h
    split at h
    · injection h with h'
      exact h'.symm
    · split at h
      · rename_i e1 he
        injection h with h'
        rw [← h']
        exact ih e1 he
      · exact absurd h (by simp)

/-! ### The claims -/

/-- Claim C1.  The claim states that `get_all`'s `total_records` equals the
number of records matching the supplied filters, soft-deleted records
excluded unless `include_deleted`.  The code computes `total_records` as the
count of the base query before the deleted-exclusion and before the filters
are applied, so the claim fails: on the two-record collection `db2`, a filter
matching exactly one record still reports `total_records = 2` (first
conjunct); a collection with one live and one soft-deleted record reports 2
with `include_deleted = false` (third conjunct).  The limit half of the claim
does hold (second conjunct: `limit = 1` returns one record and total 2). -/
theorem get_all_total_counts_all_rows :
    Storage.get_all db2 "c" "p" (some [⟨"rank", FilterVal.scalar 1, CompOp.EQ⟩])
        (some []) none none false = Except.ok ([rowB], 2) ∧
    Storage.get_all db2 "c" "p" (some []) (some []) none (some 1) false =
      Except.ok ([rowA], 2) ∧
    Storage.get_all dbDel "c" "p" (some []) (some []) none none false =
      Except.ok ([rowLive], 2) :=
  ⟨rfl, rfl, rfl⟩

/-- Claim C2.  The claim states that `get_all` applies deleted-exclusion,
filters, pagination rules, sort, then limit, and in particular that a
non-empty `pagination_rules` argument restricts the returned page.  The code
accepts the argument and never applies it: the result is literally
independent of `pagination_rules` (first conjunct), and a pagination rule
matching no record still leaves the full page (second conjunct). -/
theorem get_all_pagination_rules_ignored :
    (∀ (db : DBState) (cid pid : String) (fs : Option (List Filter))
        (ss : Option (List SortInstr)) (pr pr' : Option (List (List Filter)))
        (l : Option Nat) (incl : Bool),
      Storage.get_all db cid pid fs ss pr l incl =
        Storage.get_all db cid pid fs ss pr' l incl) ∧
    Storage.get_all db2 "c" "p" (some []) (some [])
        (some [[⟨"rank", FilterVal.scalar 999, CompOp.EQ⟩]]) none false =
      Except.ok ([rowA, rowB], 2) :=
  ⟨fun _ _ _ _ _ _ _ _ _ => rfl, rfl⟩

/-- Claim C3.  The claim states that every operation is scoped by
`(collection_id, parent_id)`: a record under another parent is neither
returned by `get` nor counted or returned by `get_all`.  The code violates
this: `get` is a bare primary-key lookup and `get_all`'s parent restriction
is commented out, so the record of parent `"A"` is returned by a `get` for
parent `"B"` and is the page and the total of a `get_all` for parent
`"B"`. -/
theorem namespace_scoping_violated :
    rowF.parent_id ≠ "B" ∧
    Storage.get dbF "c" "B" 1 = Except.ok rowF ∧
    Storage.get_all dbF "c" "B" (some []) (some []) none none false =
      Except.ok ([rowF], 1) :=
  ⟨by decide, rfl, rfl⟩

/-- Claim C5.  The claim states that `purge_deleted` removes only the
namespace's tombstones, restricted to `last_modified < before` when `before`
is supplied, and returns the count.  The code never puts `before` into the
delete's `where` clause: the result is independent of `before` (first
conjunct), and a tombstone deleted at time 100 is purged by a call with
`before = 50` and counted (second conjunct).  The idempotence half of the
claim does hold: purging again returns 0 (third conjunct). -/
theorem purge_deleted_ignores_before :
    (∀ (db : DBState) (cid pid : String) (b b' : Option Nat),
      Storage.purge_deleted db cid pid b = Storage.purge_deleted db cid pid b') ∧
    Storage.purge_deleted dbT "c" "p" (some 50) = ({ dbT with tombstones := [] }, 1) ∧
    (Storage.purge_deleted { dbT with tombstones := [] } "c" "p" (some 50)).2 = 0 :=
  ⟨fun _ _ _ _ _ => rfl, rfl, rfl⟩

/-- Claim C10.  `get_all` and `delete_all` are only defined when `filters` is
an actual list: with the `None` default, iterating the filters raises
`TypeError` before any result is returned or any record deleted (first two
conjuncts; `delete_all` leaves the state untouched), and when `filters` is a
list — even the empty one — that failure is unreachable (last two
conjuncts). -/
theorem filters_must_be_list :
    (∀ (db : DBState) (cid pid : String) (ss : Option (List SortInstr))
        (pr : Option (List (List Filter))) (l : Option Nat) (incl : Bool),
      Storage.get_all db cid pid none ss pr l incl =
        Except.error QueryError.filtersNone) ∧
    (∀ (db : DBState) (cid pid : String) (wd : Bool),
      Storage.delete_all db cid pid none wd = (db, Except.error QueryError.filtersNone)) ∧
    (∀ (db : DBState) (cid pid : String) (fs : List Filter)
        (ss : Option (List SortInstr)) (pr : Option (List (List Filter)))
        (l : Option Nat) (incl : Bool),
      Storage.get_all db cid pid (some fs) ss pr l incl ≠
        Except.error QueryError.filtersNone) ∧
    (∀ (db : DBState) (cid pid : String) (fs : List Filter) (wd : Bool),
      (Storage.delete_all db cid pid (some fs) wd).2 ≠
        Except.error QueryError.filtersNone) := by
  refine ⟨fun _ _ _ _ _ _ _ => rfl, fun _ _ _ _ => rfl, ?_, ?_⟩
  · intro db cid pid fs ss pr l incl h
    simp only [Storage.get_all] at h
    split at h
    · rename_i e he
      have := applyFilters_error _ _ _ he
      subst this
      exact absurd (by injection h) (by simp)
    · split at h
      · exact absurd (by injection h) (by simp)
      · split at h
        · rename_i e he
          have := applyOrderby_error _ _ he
          subst this
          exact absurd (by injection h) (by simp)
        · exact absurd h (by simp)
  · intro db cid pid fs wd h
    simp only [Storage.delete_all] at h
    split at h
    · exact absurd h (by simp)
    · exact absurd h (by simp)

/-- Claim C4, counterexample.  The claim states that updating a live record
bumps its `last_modified` to a strictly greater value.  Updating `rowU`
(last modified at 5) overwrites the supplied field but returns the record
still carrying `last_modified = 5`: the timestamp is not bumped. -/
theorem update_does_not_bump_last_modified :
    (Storage.update dbU "c" "p" 1 [("name", 99)]).2 =
      Except.ok { id := 1, parent_id := "p", last_modified := rowU.last_modified,
                  deleted := false, fields := [("name", 99), ("rank", 2)] } ∧
    ¬ rowU.last_modified < rowU.last_modified :=
  ⟨rfl, by decide⟩

/-- Claim C4, amended.  `update` falls back to `create` with the payload's
content when no record with the id exists; when a record exists, exactly the
supplied fields are overwritten (supplied keys take their payload value,
absent keys keep their previous value), the id, parent, deleted flag and —
contrary to the original claim — `last_modified` are all left unchanged, and
the updated representation is returned. -/
theorem update_semantics (db : DBState) (cid pid : String) (oid : Nat)
    (object : List (String × Int)) :
    (db.records.find? (fun x => x.id == oid) = none →
      Storage.update db cid pid oid object =
        Storage.create db cid pid { id := none, fields := object }) ∧
    (∀ r, db.records.find? (fun x => x.id == oid) = some r →
      (Storage.update db cid pid oid object).2 =
        Except.ok { r with fields := Storage.setFields r.fields object } ∧
      ({ r with fields := Storage.setFields r.fields object } : Row).last_modified
        = r.last_modified ∧
      ({ r with fields := Storage.setFields r.fields object } : Row).id = r.id ∧
      ({ r with fields := Storage.setFields r.fields object } : Row).deleted = r.deleted ∧
      ({ r with fields := Storage.setFields r.fields object } : Row).parent_id = r.parent_id ∧
      (∀ k, (∀ p ∈ object, p.1 ≠ k) →
        (Storage.setFields r.fields object).lookup k = r.fields.lookup k) ∧
      ((object.map Prod.fst).Nodup → ∀ k v, (k, v) ∈ object →
        (Storage.setFields r.fields object).lookup k = some v)) := by
  constructor
  · intro h
    simp only [Storage.update, h]
  · intro r h
    refine ⟨?_, rfl, rfl, rfl, rfl, ?_, ?_⟩
    · simp only [Storage.update, h]
    · intro k hk
      exact setFields_lookup_not_mem object r.fields k hk
    · intro hnd k v hm
      exact setFields_lookup_mem object r.fields k v hnd hm

/-- Witness for the amended claim C4, at the concrete state `dbU`. -/
theorem update_semantics_witness :
    (Storage.update dbU "c" "p" 1 [("name", 99)]).2 =
      Except.ok { rowU with fields := Storage.setFields rowU.fields [("name", 99)] } ∧
    (Storage.setFields rowU.fields [("name", 99)]).lookup "name" = some 99 ∧
    (Storage.setFields rowU.fields [("name", 99)]).lookup "rank" = rowU.fields.lookup "rank" :=
  ⟨((update_semantics dbU "c" "p" 1 [("name", 99)]).2 rowU rfl).1,
   ((update_semantics dbU "c" "p" 1 [("name", 99)]).2 rowU rfl).2.2.2.2.2.2
     (by decide) "name" 99 (by decide),
   ((update_semantics dbU "c" "p" 1 [("name", 99)]).2 rowU rfl).2.2.2.2.2.1
     "rank" (by decide)⟩

/-- Claim C7.  After a successful `delete`, `get` on the same id fails with
`RecordNotFoundError` and a second `delete` also fails, leaving the state
untouched; `delete` of an id that was never created fails with
`RecordNotFoundError` and changes nothing (and `get` fails likewise). -/
theorem delete_then_get (db : DBState) (cid pid : String) (oid : Nat) :
    (∀ (db' : DBState) (r : Row),
      Storage.delete db cid pid oid = (db', Except.ok r) →
      Storage.get db' cid pid oid = Except.error StorageErr.recordNotFound ∧
      Storage.delete db' cid pid oid = (db', Except.error StorageErr.recordNotFound)) ∧
    (db.records.find? (fun x => x.id == oid) = none →
      Storage.delete db cid pid oid = (db, Except.error StorageErr.recordNotFound) ∧
      Storage.get db cid pid oid = Except.error StorageErr.recordNotFound) := by
  constructor
  · intro db' r h
    cases hfind : db.records.find? (fun x => x.id == oid) with
    | none =>
      simp only [Storage.delete, hfind] at h
      exact absurd (congrArg Prod.snd h) (by simp)
    | some r0 =>
      have hid : r0.id = oid := by
        have := List.find?_some hfind
        simpa using this
      simp only [Storage.delete, hfind] at h
      by_cases hdel : r0.deleted
      · rw [if_pos hdel] at h
        exact absurd (congrArg Prod.snd h) (by simp)
      · rw [if_neg hdel] at h
        injection h with h1 h2
        subst h1
        constructor
        · simp only [Storage.get]
          rw [find?_map_update db.records oid
            ({ r0 with deleted := true, last_modified := db.now }) hid]
          rw [hfind]
          simp
        · simp only [Storage.delete]
          rw [find?_map_update db.records oid
            ({ r0 with deleted := true, last_modified := db.now }) hid]
          rw [hfind]
          simp
  · intro hfind
    constructor
    · simp only [Storage.delete, hfind]
    · simp only [Storage.get, hfind]

/-- Witness for claim C7: deleting the single live record of `dbW` yields
`dbW'`, where `get` and a second `delete` both fail without changing the
state; on the record-free state `dbT` a `delete` of id 1 fails and changes
nothing. -/
theorem delete_then_get_witness :
    (Storage.get dbW' "c" "p" 1 = Except.error StorageErr.recordNotFound ∧
      Storage.delete dbW' "c" "p" 1 = (dbW', Except.error StorageErr.recordNotFound)) ∧
    (Storage.delete dbT "c" "p" 1 = (dbT, Except.error StorageErr.recordNotFound) ∧
      Storage.get dbT "c" "p" 1 = Except.error StorageErr.recordNotFound) :=
  ⟨(delete_then_get dbW "c" "p" 1).1 dbW' rowW' rfl,
   (delete_then_get dbT "c" "p" 1).2 rfl⟩

/-- Claim C8, counterexample.  The claim states that `create` assigns an
identifier produced by the pluggable id generator when the payload carries
none.  The generator (`IntegerId`) only ever produces the string `"1"`, yet
creating an id-less record in `db8` stores and returns id 2: the id comes
from the primary-key autoincrement, not from the generator. -/
theorem create_ignores_id_generator :
    (Storage.create db8 "c" "p" { id := none, fields := [("rank", 3)] }).2 =
      Except.ok { id := 2, parent_id := "p", last_modified := 7, deleted := false,
                  fields := [("rank", 3)] } ∧
    IntegerId.call = "1" ∧
    (2 : Nat) ≠ 1 :=
  ⟨rfl, rfl, by decide⟩

/-- Claim C8, amended.  For a payload without identifier, `create` assigns
the database autoincrement id (`nextId`, one more than the largest id in the
table — the id generator is never consulted), sets `last_modified` to the
current time, appends the stored row, and returns its representation. -/
theorem create_semantics (db : DBState) (cid pid : String)
    (fields : List (String × Int)) :
    Storage.create db cid pid { id := none, fields := fields } =
      ({ db with
          records := db.records ++
            [{ id := nextId db, parent_id := pid, last_modified := db.now,
               deleted := false, fields := fields }],
          now := db.now + 1 },
       Except.ok { id := nextId db, parent_id := pid, last_modified := db.now,
                   deleted := false, fields := fields }) := by
  have h := any_nextId_false db
  simp [Storage.create, h]

/-- Claim C9.  The sort translator maps the descending direction `-1` to a
descending clause and the ascending direction `1` to an ascending clause on
the named field; any other direction value raises immediately (`KeyError`,
aborting `get_all`) instead of silently defaulting; the clauses of multiple
sort pairs are collected in the given order, and the sorted output is ordered
by the first pair as the primary key, whatever further pairs follow. -/
theorem sqlsort_semantics :
    (∀ f : String, SQLSort.build ⟨f, -1⟩ = some (f, SortDir.desc)) ∧
    (∀ f : String, SQLSort.build ⟨f, 1⟩ = some (f, SortDir.asc)) ∧
    (∀ (f : String) (d : Int), d ≠ -1 → d ≠ 1 → SQLSort.build ⟨f, d⟩ = none) ∧
    (∀ (s : SortInstr) (rest : List SortInstr), SQLSort.build s = none →
      applyOrderby (s :: rest) = Except.error QueryError.keyErrorSortDirection) ∧
    (∀ (s : SortInstr) (c : String × SortDir) (rest : List SortInstr)
        (cs : List (String × SortDir)),
      SQLSort.build s = some c → applyOrderby rest = Except.ok cs →
      applyOrderby (s :: rest) = Except.ok (c :: cs)) ∧
    (∀ (c : String × SortDir) (cs : List (String × SortDir)) (l : List Row),
      List.Sorted (rowLE [c]) (sortRows (c :: cs) l)) := by
  refine ⟨fun f => rfl, fun f => rfl, ?_, ?_, ?_, ?_⟩
  · intro f d h1 h2
    unfold SQLSort.build
    rw [if_neg h1, if_neg h2]
  · intro s rest h
    simp only [applyOrderby, h]
  · intro s c rest cs h1 h2
    simp only [applyOrderby, h1, h2]
  · intro c cs l
    have htot : IsTotal Row (rowLE (c :: cs)) := ⟨fun a b => rowLE_total _ a b⟩
    have htrans : IsTrans Row (rowLE (c :: cs)) :=
      ⟨fun a b d h1 h2 => cmpClauses_trans h1 h2⟩
    have hs := @List.sorted_insertionSort Row (rowLE (c :: cs)) _ htot htrans l
    exact List.Pairwise.imp (fun h => rowLE_head h) hs

/-- Witness for claim C9: direction 5 is neither descending nor ascending and
yields no clause (an immediate error). -/
theorem sqlsort_semantics_witness :
    SQLSort.build ⟨"rank", (5 : Int)⟩ = none :=
  sqlsort_semantics.2.2.1 "rank" 5 (by decide) (by decide)

/-- Claim C6.  The classifier never returns normally: its outcome is either
`UnicityError` or `BackendError` (last conjunct).  `UnicityError` — carrying
the first parenthesised group of the message as the offending field together
with the attempted record — arises exactly when the engine is postgresql,
the error code is 23505, and the message parses into exactly two groups
(first and second conjuncts); a non-postgresql engine or an unparseable
message falls back to `BackendError` (third and fourth conjuncts). -/
theorem classifier_spec :
    (∀ (e : RawError) (record : Payload) (f : String) (r : Payload),
      DBError.get_class e record = ClassifierOutcome.unicity f r →
      e.engine = "postgresql" ∧ e.pgcode = some "23505" ∧ r = record ∧
      ∃ s, findallParen e.pgerror.toList = [f, s]) ∧
    (∀ (e : RawError) (record : Payload),
      e.engine = "postgresql" → e.pgcode = some "23505" →
      ∀ (f s : String), findallParen e.pgerror.toList = [f, s] →
      DBError.get_class e record = ClassifierOutcome.unicity f record) ∧
    (∀ (e : RawError) (record : Payload),
      e.engine ≠ "postgresql" →
      DBError.get_class e record = ClassifierOutcome.backend) ∧
    (∀ (e : RawError) (record : Payload),
      (∀ (f s : String), findallParen e.pgerror.toList ≠ [f, s]) →
      DBError.get_class e record = ClassifierOutcome.backend) ∧
    (∀ (e : RawError) (record : Payload),
      DBError.get_class e record = ClassifierOutcome.backend ∨
      ∃ f, DBError.get_class e record = ClassifierOutcome.unicity f record) := by
  have p1 : ∀ (e : RawError) (record : Payload) (f : String) (r : Payload),
      DBError.get_class e record = ClassifierOutcome.unicity f r →
      e.engine = "postgresql" ∧ e.pgcode = some "23505" ∧ r = record ∧
      ∃ s, findallParen e.pgerror.toList = [f, s] := by
    intro e record f r h
    unfold DBError.get_class at h
    by_cases h1 : e.engine ++ "Error" = "postgresqlError"
    · rw [if_pos h1] at h
      have heng := engine_eq_of_append h1
      cases hcode : e.pgcode with
      | none =>
        simp only [hcode] at h
        exact absurd h (by simp)
      | some code =>
        simp only [hcode] at h
        by_cases h2 : e.engine ++ "Error" ++ code = "postgresqlError23505"
        · rw [if_pos h2] at h
          rw [heng] at h2
          have hc : code = "23505" := code_eq_of_append h2
          unfold postgresqlError23505.process_error at h
          split at h
          · rename_i field s heq
            injection h with hf hr
            exact ⟨heng, by rw [hc], hr.symm, ⟨s, by rw [heq, hf]⟩⟩
          · exact absurd h (by simp)
        · rw [if_neg h2] at h
          exact absurd h (by simp)
    · rw [if_neg h1] at h
      exact absurd h (by simp)
  refine ⟨p1, ?_, ?_, ?_, ?_⟩
  · intro e record heng hcode f s hm
    have h1 : e.engine ++ "Error" = "postgresqlError" := by rw [heng]; decide
    have h2 : e.engine ++ "Error" ++ "23505" = "postgresqlError23505" := by rw [heng]; decide
    unfold DBError.get_class
    rw [if_pos h1]
    simp only [hcode]
    rw [if_pos h2]
    unfold postgresqlError23505.process_error
    rw [hm]
  · intro e record hne
    unfold DBError.get_class
    rw [if_neg (fun hc => hne (engine_eq_of_append hc))]
  · intro e record hnm
    unfold DBError.get_class
    by_cases h1 : e.engine ++ "Error" = "postgresqlError"
    · rw [if_pos h1]
      split
      · rfl
      · rename_i code hcode
        by_cases h2 : e.engine ++ "Error" ++ code = "postgresqlError23505"
        · rw [if_pos h2]
          unfold postgresqlError23505.process_error
          split
          · rename_i field s heq
            exact absurd heq (hnm field s)
          · rfl
        · rw [if_neg h2]
    · rw [if_neg h1]
  · intro e record
    cases hout : DBError.get_class e record with
    | backend => exact Or.inl rfl
    | unicity f r =>
      right
      obtain ⟨_, _, hr, _⟩ := p1 e record f r hout
      exact ⟨f, by rw [hr]⟩

/-- Witness for claim C6: a postgresql 23505 error whose message parses into
the groups `name` and `x` raises `UnicityError` on field `name` with the
attempted record. -/
theorem classifier_spec_witness :
    DBError.get_class
        { engine := "postgresql", pgcode := some "23505",
          pgerror := "duplicate key value (name)=(x) already exists" }
        { id := none, fields := [] } =
      ClassifierOutcome.unicity "name" { id := none, fields := [] } :=
  classifier_spec.2.1
    { engine := "postgresql", pgcode := some "23505",
      pgerror := "duplicate key value (name)=(x) already exists" }
    { id := none, fields := [] } rfl rfl "name" "x" (by decide)

end Kinto
